import Mathlib

/-!
Verification of the stock-assistant orchestration script (`main.py`).

Shallow embedding of the two core functions of the repository:

* `get_stock_info` — the market-data tool: queries the provider (yfinance) and
  returns a JSON string (either an eleven-field quote record or an
  `{"error": ...}` object).
* `get_agent_response` — the completion orchestrator: builds the conversation
  payload, issues the first completion request, optionally executes the tool
  and issues a second request, and always produces a displayable value.

External effects (the yfinance lookup and the two HTTP POSTs to the Gemini
endpoint) are modelled as oracle functions collected in an `Env` structure,
so theorems quantify over every possible provider/endpoint behaviour.
Python-level dynamic typing (dict `.get`, subscripting, truthiness, the
`try/except` ladder) is modelled explicitly over a `Json` value type, with
exceptions as an `Except` layer.
-/

mutual
/-- JSON values (the Python values that flow through the script: the bodies of
completion responses, the provider's `info` mapping, and the payloads built by
the orchestrator).  Python `None` is `Json.null`.  Numeric values are modelled
as integers; the fractional part of JSON numbers plays no role in any property
verified here. -/
inductive Json : Type where
  | null : Json
  | bool : Bool → Json
  | num : Int → Json
  | str : String → Json
  | arr : JsonArr → Json
  | obj : JsonObj → Json
deriving DecidableEq

/-- A JSON array, as its own inductive so that structural recursion over the
nesting is direct. -/
inductive JsonArr : Type where
  | nil : JsonArr
  | cons : Json → JsonArr → JsonArr
deriving DecidableEq

/-- A JSON object: an ordered sequence of string-keyed members (Python dicts
preserve insertion order; lookup takes the first match). -/
inductive JsonObj : Type where
  | nil : JsonObj
  | cons : String → Json → JsonObj → JsonObj
deriving DecidableEq
end

/-- Build a `JsonArr` from a Lean list (construction convenience only). -/
def JsonArr.ofList : List Json → JsonArr
  | [] => .nil
  | x :: xs => .cons x (JsonArr.ofList xs)

/-- Dictionary lookup (`d[k]` / `d.get(k)` on the key-present path). -/
def JsonObj.lookup : JsonObj → String → Option Json
  | .nil, _ => none
  | .cons k v t, key => if k = key then some v else t.lookup key

/-- The keys of an object, in order. -/
def JsonObj.keys : JsonObj → List String
  | .nil => []
  | .cons k _ t => k :: t.keys

/-- Emptiness of an object (Python `not info` on a dict). -/
def JsonObj.isEmpty : JsonObj → Bool
  | .nil => true
  | .cons _ _ _ => false

/-- Python truthiness of a value (`bool(v)`): `None`, `False`, `0`, `""`,
`[]` and `\x7b\x7d` are falsy, everything else is truthy. -/
def Json.truthy : Json → Bool
  | .null => false
  | .bool b => b
  | .num n => n != 0
  | .str s => s != ""
  | .arr .nil => false
  | .arr (.cons _ _) => true
  | .obj .nil => false
  | .obj (.cons _ _ _) => true

/-- Whether a value is a (Python) string. -/
def Json.isStr : Json → Bool
  | .str _ => true
  | _ => false

/-- Python's `==` between a value and a string literal: true exactly when the
value is that string (comparison between a string and a non-string is `False`,
never an error). -/
def Json.eqStr : Json → String → Bool
  | .str t, s => t == s
  | _, _ => false

/-- The opening-brace character, `U+007B`. -/
def lbrace : Char := Char.ofNat 123

/-- The closing-brace character, `U+007D`. -/
def rbrace : Char := Char.ofNat 125

/-- Python type names, as used in `AttributeError` messages. -/
def Json.pyTypeName : Json → String
  | .null => "NoneType"
  | .bool _ => "bool"
  | .num _ => "int"
  | .str _ => "str"
  | .arr _ => "list"
  | .obj _ => "dict"

/-- Decimal digits of a natural number, most significant first
(`Nat.digits` is little-endian, hence the reverse). -/
def natDigitChars (n : Nat) : List Char :=
  if n = 0 then ['0'] else ((Nat.digits 10 n).reverse.map Nat.digitChar)

/-- Decimal rendering of an integer, as Python's `str`/`json.dumps` prints
one. -/
def intChars : Int → List Char
  | .ofNat n => natDigitChars n
  | .negSucc m => '-' :: natDigitChars (m + 1)

mutual
/-- Python `str()` of the values appearing here: strings unquoted, `None` /
`True` / `False` by name, containers via their `repr` (string escaping inside
`repr` is not modelled — no property below depends on it). -/
def Json.pyStr : Json → String
  | .null => "None"
  | .bool true => "True"
  | .bool false => "False"
  | .num n => ⟨intChars n⟩
  | .str s => s
  | .arr a => "[" ++ a.pyReprElems ++ "]"
  | .obj o => "\x7b" ++ o.pyReprEntries ++ "\x7d"

def Json.pyRepr : Json → String
  | .null => "None"
  | .bool true => "True"
  | .bool false => "False"
  | .num n => ⟨intChars n⟩
  | .str s => "\x27" ++ s ++ "\x27"
  | .arr a => "[" ++ a.pyReprElems ++ "]"
  | .obj o => "\x7b" ++ o.pyReprEntries ++ "\x7d"

def JsonArr.pyReprElems : JsonArr → String
  | .nil => ""
  | .cons x .nil => x.pyRepr
  | .cons x (.cons y t) => x.pyRepr ++ ", " ++ (JsonArr.cons y t).pyReprElems

def JsonObj.pyReprEntries : JsonObj → String
  | .nil => ""
  | .cons k v .nil => "\x27" ++ k ++ "\x27: " ++ v.pyRepr
  | .cons k v (.cons k2 v2 t) =>
      "\x27" ++ k ++ "\x27: " ++ v.pyRepr ++ ", " ++ (JsonObj.cons k2 v2 t).pyReprEntries
end

/-! ## Serialization (`json.dumps`)

Mirrors Python's `json.dumps` with its default separators `", "` and `": "`.
String escaping covers the quote, the backslash and the common control
characters; Python additionally `\u`-escapes other control and non-ASCII
characters, which affects neither parseability nor any property below. -/

/-- Escape one character of a JSON string. -/
def escChar (c : Char) : List Char :=
  if c = '"' then ['\\', '"']
  else if c = '\\' then ['\\', '\\']
  else if c = '\n' then ['\\', 'n']
  else if c = '\t' then ['\\', 't']
  else if c = '\r' then ['\\', 'r']
  else [c]

/-- Escape a list of characters. -/
def escList (cs : List Char) : List Char :=
  cs.foldr (fun c acc => escChar c ++ acc) []

mutual
def Json.dumpChars : Json → List Char
  | .null => "null".data
  | .bool true => "true".data
  | .bool false => "false".data
  | .num n => intChars n
  | .str s => '"' :: (escList s.data ++ ['"'])
  | .arr a => '[' :: (a.dumpElems ++ [']'])
  | .obj o => lbrace :: (o.dumpEntries ++ [rbrace])

def JsonArr.dumpElems : JsonArr → List Char
  | .nil => []
  | .cons x .nil => x.dumpChars
  | .cons x (.cons y t) => x.dumpChars ++ ',' :: ' ' :: (JsonArr.cons y t).dumpElems

def JsonObj.dumpEntries : JsonObj → List Char
  | .nil => []
  | .cons k v .nil => '"' :: (escList k.data ++ '"' :: ':' :: ' ' :: v.dumpChars)
  | .cons k v (.cons k2 v2 t) =>
      ('"' :: (escList k.data ++ '"' :: ':' :: ' ' :: v.dumpChars))
        ++ ',' :: ' ' :: (JsonObj.cons k2 v2 t).dumpEntries
end

/-- `json.dumps` of a value. -/
def Json.dumps (j : Json) : String := ⟨j.dumpChars⟩

/-! ## Deserialization (`json.loads`)

A recursive-descent JSON reader, modelling the `json.loads` call the
orchestrator applies to the tool output.  Whitespace is skipped before every
token as Python's reader does.  Any input the grammar rejects is a
`JSONDecodeError` (a `ValueError`, i.e. an ordinary — not request-level —
exception in the orchestrator's `try` block). -/

/-- Whitespace as recognized between JSON tokens. -/
def wsb (c : Char) : Bool :=
  c = ' ' || c = '\n' || c = '\t' || c = '\r'

/-- Drop leading whitespace. -/
def skipWs : List Char → List Char
  | [] => []
  | c :: cs => if wsb c then skipWs cs else c :: cs

/-- Invert `escChar` on the character following a backslash. -/
def unescChar (c : Char) : Option Char :=
  if c = '"' then some '"'
  else if c = '\\' then some '\\'
  else if c = 'n' then some '\n'
  else if c = 't' then some '\t'
  else if c = 'r' then some '\r'
  else none

/-- Read the body of a quoted string up to (and consuming) the closing
quote; returns the unescaped characters and the remaining input. -/
def parseStrBody : List Char → Option (List Char × List Char)
  | [] => none
  | c :: rest =>
    if c = '"' then some ([], rest)
    else if c = '\\' then
      match rest with
      | [] => none
      | e :: rest2 =>
        match unescChar e with
        | none => none
        | some c2 =>
          match parseStrBody rest2 with
          | none => none
          | some (s, r) => some (c2 :: s, r)
    else
      match parseStrBody rest with
      | none => none
      | some (s, r) => some (c :: s, r)

/-- Consume a maximal run of decimal digits, accumulating their value. -/
def parseDigits (acc : Nat) : List Char → Nat × List Char
  | [] => (acc, [])
  | c :: cs =>
    if c.isDigit then parseDigits (10 * acc + (c.toNat - 48)) cs else (acc, c :: cs)

mutual
/-- Read one JSON value (fuel-indexed to bound the recursion). -/
def parseVal (fuel : Nat) (input : List Char) : Option (Json × List Char) :=
  match fuel with
  | 0 => none
  | fuel + 1 =>
    match skipWs input with
    | [] => none
    | c :: rest =>
      if c = 'n' then
        match rest with
        | 'u' :: 'l' :: 'l' :: r => some (.null, r)
        | _ => none
      else if c = 't' then
        match rest with
        | 'r' :: 'u' :: 'e' :: r => some (.bool true, r)
        | _ => none
      else if c = 'f' then
        match rest with
        | 'a' :: 'l' :: 's' :: 'e' :: r => some (.bool false, r)
        | _ => none
      else if c = '"' then
        match parseStrBody rest with
        | none => none
        | some (s, r) => some (.str ⟨s⟩, r)
      else if c = '[' then
        match skipWs rest with
        | [] => none
        | c2 :: r2 =>
          if c2 = ']' then some (.arr .nil, r2)
          else
            match parseElems fuel (c2 :: r2) with
            | none => none
            | some (vs, r3) => some (.arr vs, r3)
      else if c = lbrace then
        match skipWs rest with
        | [] => none
        | c2 :: r2 =>
          if c2 = rbrace then some (.obj .nil, r2)
          else
            match parseEntries fuel (c2 :: r2) with
            | none => none
            | some (kvs, r3) => some (.obj kvs, r3)
      else if c = '-' then
        match rest with
        | c2 :: _ =>
          if c2.isDigit then
            match parseDigits 0 rest with
            | (m, r) => some (.num (-(m : Int)), r)
          else none
        | [] => none
      else if c.isDigit then
        match parseDigits 0 (c :: rest) with
        | (m, r) => some (.num (Int.ofNat m), r)
      else none

/-- Read a non-empty comma-separated element list followed by `]`. -/
def parseElems (fuel : Nat) (input : List Char) : Option (JsonArr × List Char) :=
  match fuel with
  | 0 => none
  | fuel + 1 =>
    match parseVal fuel input with
    | none => none
    | some (v, r) =>
      match skipWs r with
      | [] => none
      | c :: r2 =>
        if c = ',' then
          match parseElems fuel r2 with
          | none => none
          | some (vs, r3) => some (.cons v vs, r3)
        else if c = ']' then some (.cons v .nil, r2)
        else none

/-- Read a non-empty comma-separated member list followed by the closing
brace. -/
def parseEntries (fuel : Nat) (input : List Char) : Option (JsonObj × List Char) :=
  match fuel with
  | 0 => none
  | fuel + 1 =>
    match skipWs input with
    | [] => none
    | c :: rest =>
      if c = '"' then
        match parseStrBody rest with
        | none => none
        | some (k, r1) =>
          match skipWs r1 with
          | [] => none
          | c2 :: r2 =>
            if c2 = ':' then
              match parseVal fuel r2 with
              | none => none
              | some (v, r3) =>
                match skipWs r3 with
                | [] => none
                | c3 :: r4 =>
                  if c3 = ',' then
                    match parseEntries fuel r4 with
                    | none => none
                    | some (kvs, r5) => some (.cons ⟨k⟩ v kvs, r5)
                  else if c3 = rbrace then some (.cons ⟨k⟩ v .nil, r4)
                  else none
            else none
      else none
end

/-- `json.loads`: read one value and require the input to be exhausted. -/
def json_loads (s : String) : Except String Json :=
  match parseVal (s.data.length + 1) s.data with
  | some (j, []) => .ok j
  | _ => .error "JSONDecodeError"

/-! ## Round-trip: `json_loads` inverts `Json.dumps`

This underwrites the orchestrator's `json.loads(tool_output)` step: the tool
always returns `json.dumps` of a value, and the reader recovers that value. -/

/-- The head of the remaining input does not extend a numeral. -/
def headNotDigit : List Char → Prop
  | [] => True
  | c :: _ => c.isDigit = false

/-- Side condition for parsing a dumped value followed by `rest`: only
numerals are delimiter-sensitive. -/
def numOk : Json → List Char → Prop
  | .num _, rest => headNotDigit rest
  | _, _ => True

mutual
/-- Structural size of a value: a fuel bound for the reader. -/
def Json.size : Json → Nat
  | .null => 1
  | .bool _ => 1
  | .num _ => 1
  | .str _ => 1
  | .arr a => a.size + 1
  | .obj o => o.size + 1

def JsonArr.size : JsonArr → Nat
  | .nil => 0
  | .cons v t => v.size + t.size + 1

def JsonObj.size : JsonObj → Nat
  | .nil => 0
  | .cons _ v t => v.size + t.size + 1
end

/-! ## The program (`main.py`)

Constants and the two core functions, transcribed from the source.  The
provider call (`yf.Ticker(t).info`) and the two endpoint calls
(`requests.post(...)`, `raise_for_status()`, `response.json()`) are oracles in
`Env`; everything else is the script's own logic. -/

/-- `AGENT_MODEL` from the source. -/
def AGENT_MODEL : String := "gemini-2.0-flash"

/-- `AGENT_INSTRUCTION` from the source (a triple-quoted string that ends
with a newline). -/
def AGENT_INSTRUCTION : String :=
  "You are a helpful stock market assistant.\nYou have access to a tool called \x60get_stock_info\x60 that can fetch real-time stock data.\nUse this tool when the user asks for current stock prices or information about a specific stock ticker.\nWhen using the tool, provide the ticker symbol (e.g., \x27AAPL\x27, \x27GOOGL\x27).\nIf you don\x27t know something, just say so.\nBe concise and answer directly based on the information provided by the tool or your knowledge.\n"

/-- `STOCK_INFO_TOOL_SCHEMA` from the source: the one registered tool
declaration. -/
def STOCK_INFO_TOOL_SCHEMA : Json :=
  .obj (.cons "name" (.str "get_stock_info")
    (.cons "description" (.str "Fetches real-time stock information for a given ticker symbol. Returns current price, previous close, open, high, low, and volume.")
      (.cons "parameters" (.obj
        (.cons "type" (.str "OBJECT")
          (.cons "properties" (.obj
            (.cons "ticker" (.obj
              (.cons "type" (.str "STRING")
                (.cons "description" (.str "The stock ticker symbol (e.g., \x27AAPL\x27, \x27GOOGL\x27, \x27MSFT\x27).") .nil))) .nil))
            (.cons "required" (.arr (.cons (.str "ticker") .nil)) .nil)))) .nil)))

/-- The `data` dict built by `get_stock_info` when the provider returned a
non-empty `info` mapping: all eleven fields, each falling back to `"N/A"`
(for `currentPrice`, first to `regularMarketPrice`) when the provider key is
absent. -/
def stockDataRecord (ticker : String) (info : JsonObj) : JsonObj :=
  .cons "ticker" (.str ticker.toUpper)
  (.cons "longName" ((info.lookup "longName").getD (.str "N/A"))
  (.cons "currency" ((info.lookup "currency").getD (.str "N/A"))
  (.cons "exchange" ((info.lookup "exchange").getD (.str "N/A"))
  (.cons "currentPrice"
    ((info.lookup "currentPrice").getD ((info.lookup "regularMarketPrice").getD (.str "N/A")))
  (.cons "previousClose" ((info.lookup "previousClose").getD (.str "N/A"))
  (.cons "open" ((info.lookup "open").getD (.str "N/A"))
  (.cons "dayHigh" ((info.lookup "dayHigh").getD (.str "N/A"))
  (.cons "dayLow" ((info.lookup "dayLow").getD (.str "N/A"))
  (.cons "volume" ((info.lookup "volume").getD (.str "N/A"))
  (.cons "marketCap" ((info.lookup "marketCap").getD (.str "N/A"))
  .nil))))))))))

/-- The provider oracle: the behaviour of `yf.Ticker(ticker).info` — either a
(JSON-like, hence serializable) `info` mapping, or an exception carried as its
`str(e)` message.  An empty mapping also stands for any falsy `info`.  The
argument is the raw value extracted from the model's `functionCall` args
(`None` = `Json.null` when the key was absent). -/
def FetchOracle : Type := Json → Except String JsonObj

/-- The structured value whose `json.dumps` is `get_stock_info`'s return.
Branches of the source, in order: provider exception (`except` clause), falsy
`info`, then the `data` dict — where `ticker.upper()` raises an
`AttributeError` (caught by the same `except`) if the ticker value is not a
string. -/
def stockInfoJson (fetchInfo : FetchOracle) (ticker : Json) : Json :=
  match fetchInfo ticker with
  | .error e =>
    .obj (.cons "error"
      (.str ("An error occurred while fetching data for " ++ ticker.pyStr ++ ": " ++ e)) .nil)
  | .ok info =>
    if info.isEmpty then
      .obj (.cons "error"
        (.str ("Could not find information for ticker: " ++ ticker.pyStr
          ++ ". Please check the symbol.")) .nil)
    else
      match ticker with
      | .str t => .obj (stockDataRecord t info)
      | _ =>
        .obj (.cons "error"
          (.str ("An error occurred while fetching data for " ++ ticker.pyStr ++ ": \x27"
            ++ ticker.pyTypeName ++ "\x27 object has no attribute \x27upper\x27")) .nil)

/-- `get_stock_info` from the source: returns a JSON string. -/
def get_stock_info (fetchInfo : FetchOracle) (ticker : Json) : String :=
  (stockInfoJson fetchInfo ticker).dumps

/-- The endpoint oracle and the provider oracle together: `post1`/`post2` are
the outcomes of the first and second `requests.post` + `raise_for_status()` +
`response.json()` sequences — `.error e` is a `requests` exception (network
fault, non-2xx status, or unreadable body) carried as its message, `.ok r` the
decoded response body. -/
structure Env : Type where
  fetchInfo : FetchOracle
  post1 : Except String Json
  post2 : Except String Json

/-- Observable effects of one `get_agent_response` run: the payloads handed to
`requests.post` in order, and the arguments passed to `get_stock_info`. -/
structure Trace : Type where
  posts : List Json
  fetches : List Json
deriving DecidableEq

/-- A Python exception, split by which `except` clause of the source catches
it: `requests.exceptions.RequestException` versus everything else. -/
inductive PyExc : Type where
  | reqExc : String → PyExc
  | other : String → PyExc

/-- Python `value.get(key)` with its default of `None`: an `AttributeError`
unless the value is a dict. -/
def pyGet (v : Json) (k : String) : Except PyExc Json :=
  match v with
  | .obj kvs => .ok ((kvs.lookup k).getD .null)
  | _ => .error (.other ("AttributeError: get on " ++ v.pyTypeName))

/-- Python `value[key]` for a string key: `KeyError` if a dict lacks the key,
`TypeError` on any non-dict. -/
def pySub (v : Json) (k : String) : Except PyExc Json :=
  match v with
  | .obj kvs =>
    match kvs.lookup k with
    | some x => .ok x
    | none => .error (.other ("KeyError: " ++ k))
  | _ => .error (.other ("TypeError: \x5b" ++ k ++ "\x5d on " ++ v.pyTypeName))

/-- Python `value[0]`: first element of a list, first character of a string
(as a one-character string), `KeyError` on a (string-keyed) dict,
`IndexError` when empty, `TypeError` otherwise. -/
def pyIdx0 (v : Json) : Except PyExc Json :=
  match v with
  | .arr (.cons x _) => .ok x
  | .arr .nil => .error (.other "IndexError: 0")
  | .str s =>
    if s = "" then .error (.other "IndexError: 0")
    else .ok (.str (String.singleton s.front))
  | .obj _ => .error (.other "KeyError: 0")
  | _ => .error (.other ("TypeError: \x5b0\x5d on " ++ v.pyTypeName))

/-- The guard condition the source evaluates on a completion response, for
`key` being `"functionCall"` (first response) or `"text"` (both responses):

`result.get("candidates") and result["candidates"][0].get("content") and
result["candidates"][0]["content"].get("parts") and
result["candidates"][0]["content"]["parts"][0].get(key)`

with Python short-circuiting (a falsy prefix stops evaluation) and with every
lookup able to raise. -/
def partsGuard (result : Json) (key : String) : Except PyExc Bool := do
  let c1 ← pyGet result "candidates"
  if !c1.truthy then return false
  let c2 ← pySub result "candidates"
  let c3 ← pyIdx0 c2
  let c4 ← pyGet c3 "content"
  if !c4.truthy then return false
  let d1 ← pySub result "candidates"
  let d2 ← pyIdx0 d1
  let d3 ← pySub d2 "content"
  let d4 ← pyGet d3 "parts"
  if !d4.truthy then return false
  let e1 ← pySub result "candidates"
  let e2 ← pyIdx0 e1
  let e3 ← pySub e2 "content"
  let e4 ← pySub e3 "parts"
  let e5 ← pyIdx0 e4
  let e6 ← pyGet e5 key
  return e6.truthy

/-- `result["candidates"][0]["content"]["parts"][0][key]`, the extraction the
source performs after the corresponding guard succeeded. -/
def extractPart (result : Json) (key : String) : Except PyExc Json := do
  let a1 ← pySub result "candidates"
  let a2 ← pyIdx0 a1
  let a3 ← pySub a2 "content"
  let a4 ← pySub a3 "parts"
  let a5 ← pyIdx0 a4
  pySub a5 key

/-- A `{"role": "user", "parts": [{"text": t}]}` entry. -/
def userMsg (t : String) : Json :=
  .obj (.cons "role" (.str "user")
    (.cons "parts" (.arr (.cons (.obj (.cons "text" (.str t) .nil)) .nil)) .nil))

/-- The `{"role": "model", "parts": [{"functionCall": fc}]}` entry the
orchestrator appends to replay the model's own tool request. -/
def modelMsg (fc : Json) : Json :=
  .obj (.cons "role" (.str "model")
    (.cons "parts" (.arr (.cons (.obj (.cons "functionCall" fc .nil)) .nil)) .nil))

/-- The function-result entry: `{"role": "function", "parts":
[{"functionResponse": {"name": "get_stock_info", "response": resp}}]}`. -/
def functionMsg (resp : Json) : Json :=
  .obj (.cons "role" (.str "function")
    (.cons "parts" (.arr (.cons
      (.obj (.cons "functionResponse"
        (.obj (.cons "name" (.str "get_stock_info")
          (.cons "response" resp .nil))) .nil)) .nil)) .nil))

/-- The `tools` list attached to both requests:
`[{"functionDeclarations": [STOCK_INFO_TOOL_SCHEMA]}]`. -/
def toolsJson : Json :=
  .arr (.cons (.obj (.cons "functionDeclarations"
    (.arr (.cons STOCK_INFO_TOOL_SCHEMA .nil)) .nil)) .nil)

/-- A request payload: `{"contents": contents, "tools": toolsJson}`. -/
def mkPayload (contents : List Json) : Json :=
  .obj (.cons "contents" (.arr (JsonArr.ofList contents)) (.cons "tools" toolsJson .nil))

/-- The initial `chat_history`: the fixed instruction text, then the raw user
prompt, both as user-role parts. -/
def initialHistory (prompt : String) : List Json :=
  [userMsg AGENT_INSTRUCTION, userMsg prompt]

/-- Handling of the second completion call, from the `response_final =
requests.post(...)` line to the end of the registered-tool branch. -/
def secondCallResult (env : Env) : Except PyExc Json :=
  match env.post2 with
  | .error e => .error (.reqExc e)
  | .ok result_final =>
    match partsGuard result_final "text" with
    | .error exc => .error exc
    | .ok true => extractPart result_final "text"
    | .ok false =>
      .ok (.str "I received data from the stock tool, but couldn\x27t formulate a clear response.")

/-- The body of the `try` block of `get_agent_response`, from the first
`requests.post` on: the returned value (or the escaping exception), together
with the trace of issued requests and tool invocations. -/
def tryBody (env : Env) (prompt : String) : (Except PyExc Json) × Trace :=
  let payload1 := mkPayload (initialHistory prompt)
  match env.post1 with
  | .error e => (.error (.reqExc e), ⟨[payload1], []⟩)
  | .ok result =>
    match partsGuard result "functionCall" with
    | .error exc => (.error exc, ⟨[payload1], []⟩)
    | .ok true =>
      match extractPart result "functionCall" with
      | .error exc => (.error exc, ⟨[payload1], []⟩)
      | .ok function_call =>
        match pySub function_call "name" with
        | .error exc => (.error exc, ⟨[payload1], []⟩)
        | .ok function_name =>
          match pySub function_call "args" with
          | .error exc => (.error exc, ⟨[payload1], []⟩)
          | .ok function_args =>
            if function_name.eqStr "get_stock_info" then
              match pyGet function_args "ticker" with
              | .error exc => (.error exc, ⟨[payload1], []⟩)
              | .ok ticker =>
                let tool_output := get_stock_info env.fetchInfo ticker
                match json_loads tool_output with
                | .error e => (.error (.other e), ⟨[payload1], [ticker]⟩)
                | .ok parsed =>
                  let payload2 := mkPayload (initialHistory prompt
                    ++ [modelMsg function_call, functionMsg parsed])
                  (secondCallResult env, ⟨[payload1, payload2], [ticker]⟩)
            else
              (.ok (.str ("Agent tried to call an unknown function: " ++ function_name.pyStr)),
                ⟨[payload1], []⟩)
    | .ok false =>
      match partsGuard result "text" with
      | .error exc => (.error exc, ⟨[payload1], []⟩)
      | .ok true =>
        match extractPart result "text" with
        | .error exc => (.error exc, ⟨[payload1], []⟩)
        | .ok t => (.ok t, ⟨[payload1], []⟩)
      | .ok false =>
        (.ok (.str "I couldn\x27t get a clear response from the model. Please try again."),
          ⟨[payload1], []⟩)

/-- Python falsiness of the credential (`if not api_key`): absent (`None`) or
the empty string. -/
def apiKeyFalsy : Option String → Bool
  | none => true
  | some s => s == ""

/-- The user-facing text of the `except requests.exceptions.RequestException`
handler, naming the failure and the configured model. -/
def transportFailureMsg (e : String) : String :=
  "I\x27m currently unable to provide a response due to a technical issue: " ++ e
    ++ ". Please ensure your API key is correct and has access to the \x27"
    ++ AGENT_MODEL ++ "\x27 model."

/-- `get_agent_response` from the source.  The returned `Json` is the Python
value handed back to the chat UI (normally a string, i.e. `Json.str`); the
`Trace` records the outbound requests and tool invocations.  The `try/except`
ladder is resolved here: request-level exceptions yield the transport-failure
text, any other exception yields the generic apology. -/
def get_agent_response (env : Env) (prompt : String) (api_key : Option String) :
    Json × Trace :=
  if apiKeyFalsy api_key then
    (.str "Gemini API Key is missing. Please provide it to use the assistant.", ⟨[], []⟩)
  else
    match tryBody env prompt with
    | (.ok v, tr) => (v, tr)
    | (.error (.reqExc e), tr) => (.str (transportFailureMsg e), tr)
    | (.error (.other _), tr) => (.str "An unexpected error occurred.", tr)

/-! ## Canonical completion-response shapes and navigation lemmas -/

/-- A well-formed one-candidate response `{"candidates": [{"content":
{"parts": [part]}}]}`. -/
def mkPartResponse (part : Json) : Json :=
  .obj (.cons "candidates" (.arr (.cons
    (.obj (.cons "content" (.obj (.cons "parts" (.arr (.cons part .nil)) .nil)) .nil)) .nil)) .nil)

/-- A response whose only part is `{"text": t}`. -/
def mkTextResponse (t : Json) : Json :=
  mkPartResponse (.obj (.cons "text" t .nil))

/-- A `functionCall` object `{"name": name, "args": args}`. -/
def fcObj (name : String) (args : Json) : Json :=
  .obj (.cons "name" (.str name) (.cons "args" args .nil))

/-- A response whose only part is `{"functionCall": fc}`. -/
def mkFCResponse (fc : Json) : Json :=
  mkPartResponse (.obj (.cons "functionCall" fc .nil))

/-! ## Concrete scenarios used as witnesses and counterexamples -/

/-- A provider that always answers with an empty `info` mapping. -/
def emptyFetch : FetchOracle := fun _ => .ok .nil

/-- A provider that always raises. -/
def errFetch : FetchOracle := fun _ => .error "boom"

/-- A provider returning a small recognizable `info` mapping (no
`currentPrice`, so the `regularMarketPrice` fallback is exercised). -/
def demoInfo : JsonObj :=
  .cons "longName" (.str "Apple Inc.") (.cons "regularMarketPrice" (.num 190) .nil)

/-- Provider oracle for `demoInfo`. -/
def demoFetch : FetchOracle := fun _ => .ok demoInfo

/-- The args mapping `{"ticker": "AAPL"}`. -/
def argsAAPL : JsonObj := .cons "ticker" (.str "AAPL") .nil

/-- First response carries a part whose `"text"` value is the number `5`. -/
def envNumText : Env := ⟨emptyFetch, .ok (mkTextResponse (.num 5)), .ok .null⟩

/-- A full tool round: first response requests `get_stock_info("AAPL")`, the
second returns plain text. -/
def envToolDemo : Env :=
  ⟨emptyFetch, .ok (mkFCResponse (fcObj "get_stock_info" (.obj argsAAPL))),
    .ok (mkTextResponse (.str "done"))⟩

/-- First response requests an unregistered tool, with an (empty) args
mapping. -/
def envUnknownTool : Env :=
  ⟨emptyFetch, .ok (mkFCResponse (fcObj "do_something_else" (.obj .nil))), .ok .null⟩

/-- First response requests an unregistered tool whose `functionCall` has no
`"args"` entry at all. -/
def envNoArgs : Env :=
  ⟨emptyFetch, .ok (mkFCResponse (.obj (.cons "name" (.str "do_something_else") .nil))),
    .ok .null⟩

/-- Both responses request the registered tool: the model asks for a second
round. -/
def envToolLoop : Env :=
  ⟨emptyFetch, .ok (mkFCResponse (fcObj "get_stock_info" (.obj argsAAPL))),
    .ok (mkFCResponse (fcObj "get_stock_info" (.obj argsAAPL)))⟩

/-- The first request fails at transport level. -/
def envPost1Fail : Env := ⟨emptyFetch, .error "connection refused", .ok .null⟩

/-- The tool round happens but the second request fails at transport level. -/
def envToolPost2Fail : Env :=
  ⟨emptyFetch, .ok (mkFCResponse (fcObj "get_stock_info" (.obj argsAAPL))), .error "timeout"⟩

/-- First response is plain non-empty text. -/
def envPlainText : Env := ⟨emptyFetch, .ok (mkTextResponse (.str "Apple is a company.")), .ok .null⟩

/-- First response carries an empty-string text part. -/
def envEmptyTextPart : Env := ⟨emptyFetch, .ok (mkTextResponse (.str "")), .ok .null⟩

/-! ## Claim C10 -/

/-- The shape claim on the tool's structured output: either a single-key
`error` object or the full eleven-field record. -/
def stockShapeOk : Json → Bool
  | .obj (.cons "error" _ .nil) => true
  | .obj o =>
    o.keys == ["ticker", "longName", "currency", "exchange", "currentPrice", "previousClose",
      "open", "dayHigh", "dayLow", "volume", "marketCap"]
  | _ => false

theorem ne_of_isDigit (c L : Char) (h : c.isDigit = true) (hL : L.isDigit = false) :
    c ≠ L := by
  intro he
  subst he
  rw [h] at hL
  exact absurd hL (by decide)

theorem wsb_eq_false_of_isDigit (c : Char) (h : c.isDigit = true) : wsb c = false := by
  unfold wsb
  rw [decide_eq_false (ne_of_isDigit c ' ' h (by decide)),
    decide_eq_false (ne_of_isDigit c '\n' h (by decide)),
    decide_eq_false (ne_of_isDigit c '\t' h (by decide)),
    decide_eq_false (ne_of_isDigit c '\r' h (by decide))]
  rfl

theorem digitChar_isDigit (d : Nat) (h : d < 10) : (Nat.digitChar d).isDigit = true := by
  interval_cases d <;> decide

theorem digitChar_toNat (d : Nat) (h : d < 10) : (Nat.digitChar d).toNat = 48 + d := by
  interval_cases d <;> decide

theorem parseDigits_append (ds : List Nat) (acc : Nat) (rest : List Char)
    (hds : ∀ d ∈ ds, d < 10) (hrest : headNotDigit rest) :
    parseDigits acc (ds.map Nat.digitChar ++ rest) =
      (ds.foldl (fun a d => 10 * a + d) acc, rest) := by
  induction ds generalizing acc with
  | nil =>
    simp only [List.map_nil, List.nil_append, List.foldl_nil]
    match rest, hrest with
    | [], _ => rfl
    | c :: cs, hrest =>
      unfold parseDigits
      rw [hrest]
      simp
  | cons d ds ih =>
    have hd : d < 10 := hds d (List.mem_cons_self d ds)
    simp only [List.map_cons, List.cons_append, List.foldl_cons]
    unfold parseDigits
    rw [digitChar_isDigit d hd]
    simp only [if_true]
    rw [digitChar_toNat d hd]
    have : 48 + d - 48 = d := by omega
    rw [this]
    exact ih (10 * acc + d) (fun x hx => hds x (List.mem_cons_of_mem d hx))

theorem foldr_ofDigits (l : List Nat) :
    l.foldr (fun x y => 10 * y + x) 0 = Nat.ofDigits 10 l := by
  induction l with
  | nil => simp [Nat.ofDigits]
  | cons d t ih =>
    simp only [List.foldr_cons, ih, Nat.ofDigits_cons]
    omega

theorem foldl_reverse_digits (n : Nat) :
    ((Nat.digits 10 n).reverse).foldl (fun a d => 10 * a + d) 0 = n := by
  rw [List.foldl_reverse]
  rw [foldr_ofDigits]
  exact Nat.ofDigits_digits 10 n

theorem parseDigits_natChars (n : Nat) (rest : List Char) (h : headNotDigit rest) :
    parseDigits 0 (natDigitChars n ++ rest) = (n, rest) := by
  by_cases h0 : n = 0
  · subst h0
    rw [show natDigitChars 0 = [(0 : Nat)].map Nat.digitChar from rfl]
    rw [parseDigits_append [0] 0 rest (by intro d hd; simp at hd; omega) h]
    simp
  · rw [show natDigitChars n = (Nat.digits 10 n).reverse.map Nat.digitChar by
      unfold natDigitChars; rw [if_neg h0]]
    rw [parseDigits_append ((Nat.digits 10 n).reverse) 0 rest
      (fun d hd => Nat.digits_lt_base (by norm_num) (List.mem_reverse.mp hd)) h]
    rw [foldl_reverse_digits]

theorem natDigitChars_head (n : Nat) :
    ∃ c cs, natDigitChars n = c :: cs ∧ c.isDigit = true := by
  unfold natDigitChars
  by_cases h0 : n = 0
  · subst h0
    exact ⟨'0', [], by simp, by decide⟩
  · rw [if_neg h0]
    have hne : Nat.digits 10 n ≠ [] := Nat.digits_ne_nil_iff_ne_zero.mpr h0
    match hrev : (Nat.digits 10 n).reverse with
    | [] => exact absurd (List.reverse_eq_nil_iff.mp hrev) hne
    | d :: ds =>
      refine ⟨Nat.digitChar d, ds.map Nat.digitChar, by simp, ?_⟩
      have hd : d ∈ Nat.digits 10 n := by
        rw [← List.mem_reverse, hrev]
        exact List.mem_cons_self d ds
      exact digitChar_isDigit d (Nat.digits_lt_base (by norm_num) hd)

theorem parseStrBody_esc (cs rest : List Char) :
    parseStrBody (escList cs ++ '"' :: rest) = some (cs, rest) := by
  induction cs with
  | nil =>
    unfold escList
    simp only [List.foldr_nil, List.nil_append]
    unfold parseStrBody
    simp
  | cons c cs ih =>
    have hstep : escList (c :: cs) = escChar c ++ escList cs := by
      unfold escList
      simp
    rw [hstep, List.append_assoc]
    unfold escChar
    by_cases h1 : c = '"'
    · subst h1
      rw [if_pos rfl]
      unfold parseStrBody
      simp only [List.cons_append]
      simp [unescChar, ih]
    · rw [if_neg h1]
      by_cases h2 : c = '\\'
      · subst h2
        rw [if_pos rfl]
        unfold parseStrBody
        simp only [List.cons_append]
        simp [unescChar, ih]
      · rw [if_neg h2]
        by_cases h3 : c = '\n'
        · subst h3
          rw [if_pos rfl]
          unfold parseStrBody
          simp only [List.cons_append]
          simp [unescChar, ih]
        · rw [if_neg h3]
          by_cases h4 : c = '\t'
          · subst h4
            rw [if_pos rfl]
            unfold parseStrBody
            simp only [List.cons_append]
            simp [unescChar, ih]
          · rw [if_neg h4]
            by_cases h5 : c = '\r'
            · subst h5
              rw [if_pos rfl]
              unfold parseStrBody
              simp only [List.cons_append]
              simp [unescChar, ih]
            · rw [if_neg h5]
              unfold parseStrBody
              simp only [List.singleton_append]
              rw [if_neg h1, if_neg h2]
              simp [ih]

theorem digit_not_special (c : Char) (h : c.isDigit = true) :
    wsb c = false ∧ c ≠ ']' ∧ c ≠ 'n' ∧ c ≠ 't' ∧ c ≠ 'f' ∧ c ≠ '"' ∧ c ≠ '[' ∧
      c ≠ lbrace ∧ c ≠ '-' :=
  ⟨wsb_eq_false_of_isDigit c h, ne_of_isDigit c ']' h (by decide),
    ne_of_isDigit c 'n' h (by decide), ne_of_isDigit c 't' h (by decide),
    ne_of_isDigit c 'f' h (by decide), ne_of_isDigit c '"' h (by decide),
    ne_of_isDigit c '[' h (by decide), ne_of_isDigit c lbrace h (by decide),
    ne_of_isDigit c '-' h (by decide)⟩

/-- Every serialized value starts with a non-whitespace character that is not
a closing bracket. -/
theorem dumpChars_head (j : Json) :
    ∃ c cs, j.dumpChars = c :: cs ∧ wsb c = false ∧ c ≠ ']' := by
  cases j with
  | null => exact ⟨'n', _, rfl, by decide, by decide⟩
  | bool b => cases b with
    | true => exact ⟨'t', _, rfl, by decide, by decide⟩
    | false => exact ⟨'f', _, rfl, by decide, by decide⟩
  | num n =>
    cases n with
    | ofNat m =>
      obtain ⟨c, cs, hc, hd⟩ := natDigitChars_head m
      exact ⟨c, cs, by simp [Json.dumpChars, intChars, hc],
        (digit_not_special c hd).1, (digit_not_special c hd).2.1⟩
    | negSucc m =>
      exact ⟨'-', natDigitChars (m + 1), rfl, by decide, by decide⟩
  | str s => exact ⟨'"', _, rfl, by decide, by decide⟩
  | arr a => exact ⟨'[', _, rfl, by decide, by decide⟩
  | obj o => exact ⟨lbrace, _, rfl, by decide, by decide⟩

theorem skipWs_not_ws (c : Char) (cs : List Char) (h : wsb c = false) :
    skipWs (c :: cs) = c :: cs := by
  unfold skipWs
  rw [h]
  simp

/-- Reading one value ignores a leading blank. -/
theorem parseVal_ws (fuel : Nat) (x : List Char) :
    parseVal fuel (' ' :: x) = parseVal fuel x := by
  cases fuel with
  | zero => rfl
  | succ f =>
    have hsk : skipWs (' ' :: x) = skipWs x := by
      conv_lhs => rw [skipWs]
      simp [wsb]
    unfold parseVal
    rw [hsk]

theorem parseElems_ws (fuel : Nat) (x : List Char) :
    parseElems fuel (' ' :: x) = parseElems fuel x := by
  cases fuel with
  | zero => rfl
  | succ f =>
    unfold parseElems
    rw [parseVal_ws]

theorem parseEntries_ws (fuel : Nat) (x : List Char) :
    parseEntries fuel (' ' :: x) = parseEntries fuel x := by
  cases fuel with
  | zero => rfl
  | succ f =>
    have hsk : skipWs (' ' :: x) = skipWs x := by
      conv_lhs => rw [skipWs]
      simp [wsb]
    unfold parseEntries
    rw [hsk]

/-- One unfolding of the reader on a non-blank head character, exposing the
dispatch chain for rewriting. -/
theorem parseVal_succ_cons (f : Nat) (c : Char) (rest : List Char) (hws : wsb c = false) :
    parseVal (f + 1) (c :: rest) =
      (if c = 'n' then
        match rest with
        | 'u' :: 'l' :: 'l' :: r => some (.null, r)
        | _ => none
      else if c = 't' then
        match rest with
        | 'r' :: 'u' :: 'e' :: r => some (.bool true, r)
        | _ => none
      else if c = 'f' then
        match rest with
        | 'a' :: 'l' :: 's' :: 'e' :: r => some (.bool false, r)
        | _ => none
      else if c = '"' then
        match parseStrBody rest with
        | none => none
        | some (s, r) => some (.str ⟨s⟩, r)
      else if c = '[' then
        match skipWs rest with
        | [] => none
        | c2 :: r2 =>
          if c2 = ']' then some (.arr .nil, r2)
          else
            match parseElems f (c2 :: r2) with
            | none => none
            | some (vs, r3) => some (.arr vs, r3)
      else if c = lbrace then
        match skipWs rest with
        | [] => none
        | c2 :: r2 =>
          if c2 = rbrace then some (.obj .nil, r2)
          else
            match parseEntries f (c2 :: r2) with
            | none => none
            | some (kvs, r3) => some (.obj kvs, r3)
      else if c = '-' then
        match rest with
        | c2 :: _ =>
          if c2.isDigit then
            match parseDigits 0 rest with
            | (m, r) => some (.num (-(m : Int)), r)
          else none
        | [] => none
      else if c.isDigit then
        match parseDigits 0 (c :: rest) with
        | (m, r) => some (.num (Int.ofNat m), r)
      else none) := by
  unfold parseVal
  rw [skipWs_not_ws c rest hws]

/-- Reading a serialized numeral. -/
theorem parseVal_num (f : Nat) (n : Int) (rest : List Char) (h : headNotDigit rest) :
    parseVal (f + 1) (intChars n ++ rest) = some (.num n, rest) := by
  cases n with
  | ofNat m =>
    obtain ⟨c, cs, hc, hd⟩ := natDigitChars_head m
    obtain ⟨hws, _, hn, ht, hf, hq, hlb, hob, hm⟩ := digit_not_special c hd
    show parseVal (f + 1) (natDigitChars m ++ rest) = _
    rw [hc, List.cons_append, parseVal_succ_cons f c (cs ++ rest) hws]
    rw [if_neg hn, if_neg ht, if_neg hf, if_neg hq, if_neg hlb, if_neg hob, if_neg hm, if_pos hd]
    rw [show c :: (cs ++ rest) = natDigitChars m ++ rest by rw [hc]; simp]
    rw [parseDigits_natChars m rest h]
  | negSucc m =>
    show parseVal (f + 1) (('-' :: natDigitChars (m + 1)) ++ rest) = _
    rw [List.cons_append, parseVal_succ_cons f '-' (natDigitChars (m + 1) ++ rest) (by decide)]
    rw [if_neg (by decide), if_neg (by decide), if_neg (by decide), if_neg (by decide),
      if_neg (by decide), if_neg (by decide), if_pos rfl]
    obtain ⟨c, cs, hc, hd⟩ := natDigitChars_head (m + 1)
    rw [hc]
    simp only [List.cons_append]
    rw [if_pos hd]
    rw [show c :: (cs ++ rest) = natDigitChars (m + 1) ++ rest by rw [hc]; simp]
    rw [parseDigits_natChars (m + 1) rest h]
    simp [Int.negSucc_eq]

theorem Json.size_pos (j : Json) : 1 ≤ j.size := by
  cases j <;> simp [Json.size]

theorem numOk_cons (j : Json) (c : Char) (l : List Char) (h : c.isDigit = false) :
    numOk j (c :: l) := by
  cases j <;> simp [numOk, headNotDigit, h]

theorem numOk_nil (j : Json) : numOk j [] := by
  cases j <;> simp [numOk, headNotDigit]

theorem dumpElems_head (v : Json) (t : JsonArr) :
    ∃ c cs, JsonArr.dumpElems (.cons v t) = c :: cs ∧ wsb c = false ∧ c ≠ ']' := by
  obtain ⟨c, cs, hc, hws, hne⟩ := dumpChars_head v
  cases t with
  | nil => exact ⟨c, cs, by rw [show JsonArr.dumpElems (.cons v .nil) = v.dumpChars from rfl, hc],
      hws, hne⟩
  | cons w u =>
    refine ⟨c, cs ++ ',' :: ' ' :: (JsonArr.cons w u).dumpElems, ?_, hws, hne⟩
    rw [show JsonArr.dumpElems (.cons v (.cons w u)) =
      v.dumpChars ++ ',' :: ' ' :: (JsonArr.cons w u).dumpElems from rfl, hc]
    simp

theorem dumpEntries_head (k : String) (v : Json) (t : JsonObj) :
    ∃ cs, JsonObj.dumpEntries (.cons k v t) = '"' :: cs := by
  cases t with
  | nil => exact ⟨_, rfl⟩
  | cons k2 v2 u => exact ⟨_, rfl⟩

mutual
theorem size_le_dumpChars (j : Json) : j.size ≤ j.dumpChars.length := by
  cases j with
  | null => simp [Json.size, Json.dumpChars]
  | bool b => cases b <;> simp [Json.size, Json.dumpChars]
  | num n =>
    have : 1 ≤ (intChars n).length := by
      cases n with
      | ofNat m =>
        obtain ⟨c, cs, hc, _⟩ := natDigitChars_head m
        simp [intChars, hc]
      | negSucc m => simp [intChars]
    simpa [Json.size, Json.dumpChars] using this
  | str s => simp [Json.size, Json.dumpChars]
  | arr a =>
    have := sizeArr_le_dumpElems a
    simp only [Json.size, Json.dumpChars, List.length_cons, List.length_append]
    omega
  | obj o =>
    have := sizeObj_le_dumpEntries o
    simp only [Json.size, Json.dumpChars, List.length_cons, List.length_append]
    omega

theorem sizeArr_le_dumpElems (a : JsonArr) : a.size ≤ a.dumpElems.length + 1 := by
  cases a with
  | nil => simp [JsonArr.size]
  | cons v t =>
    have hv := size_le_dumpChars v
    cases t with
    | nil =>
      simp only [JsonArr.size, JsonArr.dumpElems]
      omega
    | cons w u =>
      have ht := sizeArr_le_dumpElems (JsonArr.cons w u)
      simp only [JsonArr.size, JsonArr.dumpElems, List.length_append, List.length_cons] at *
      omega

theorem sizeObj_le_dumpEntries (o : JsonObj) : o.size ≤ o.dumpEntries.length + 1 := by
  cases o with
  | nil => simp [JsonObj.size]
  | cons k v t =>
    have hv := size_le_dumpChars v
    cases t with
    | nil =>
      simp only [JsonObj.size, JsonObj.dumpEntries, List.length_cons, List.length_append]
      omega
    | cons k2 v2 u =>
      have ht := sizeObj_le_dumpEntries (JsonObj.cons k2 v2 u)
      simp only [JsonObj.size, JsonObj.dumpEntries, List.length_append, List.length_cons] at *
      omega
end

theorem parse_dumps_master (fuel : Nat) :
    (∀ j rest, Json.size j ≤ fuel → numOk j rest →
      parseVal fuel (j.dumpChars ++ rest) = some (j, rest)) ∧
    (∀ v t rest, JsonArr.size (.cons v t) ≤ fuel →
      parseElems fuel (JsonArr.dumpElems (.cons v t) ++ ']' :: rest) = some (.cons v t, rest)) ∧
    (∀ k v t rest, JsonObj.size (.cons k v t) ≤ fuel →
      parseEntries fuel (JsonObj.dumpEntries (.cons k v t) ++ rbrace :: rest) =
        some (.cons k v t, rest)) := by
  induction fuel with
  | zero =>
    refine ⟨?_, ?_, ?_⟩
    · intro j rest hf _
      have := Json.size_pos j
      omega
    · intro v t rest hf
      simp only [JsonArr.size] at hf
      omega
    · intro k v t rest hf
      simp only [JsonObj.size] at hf
      omega
  | succ f ih =>
    obtain ⟨ihV, ihA, ihO⟩ := ih
    refine ⟨?_, ?_, ?_⟩
    · intro j rest hf hr
      cases j with
      | null =>
        rw [show Json.dumpChars .null = 'n' :: ['u', 'l', 'l'] from rfl, List.cons_append,
          parseVal_succ_cons f 'n' _ (by decide), if_pos rfl]
        rfl
      | bool b =>
        cases b with
        | true =>
          rw [show Json.dumpChars (.bool true) = 't' :: ['r', 'u', 'e'] from rfl,
            List.cons_append, parseVal_succ_cons f 't' _ (by decide),
            if_neg (by decide), if_pos rfl]
          rfl
        | false =>
          rw [show Json.dumpChars (.bool false) = 'f' :: ['a', 'l', 's', 'e'] from rfl,
            List.cons_append, parseVal_succ_cons f 'f' _ (by decide),
            if_neg (by decide), if_neg (by decide), if_pos rfl]
          rfl
      | num n => exact parseVal_num f n rest hr
      | str s =>
        rw [show Json.dumpChars (.str s) = '"' :: (escList s.data ++ ['"']) from rfl,
          List.cons_append, parseVal_succ_cons f '"' _ (by decide),
          if_neg (by decide), if_neg (by decide), if_neg (by decide), if_pos rfl]
        rw [List.append_assoc, List.singleton_append, parseStrBody_esc s.data rest]
      | arr a =>
        cases a with
        | nil =>
          rw [show Json.dumpChars (.arr .nil) = '[' :: [']'] from rfl, List.cons_append,
            parseVal_succ_cons f '[' _ (by decide),
            if_neg (by decide), if_neg (by decide), if_neg (by decide), if_neg (by decide),
            if_pos rfl]
          rw [show ([']'] : List Char) ++ rest = ']' :: rest from rfl,
            skipWs_not_ws ']' rest (by decide)]
          rfl
        | cons v t =>
          rw [show Json.dumpChars (.arr (.cons v t)) =
            '[' :: (JsonArr.dumpElems (.cons v t) ++ [']']) from rfl, List.cons_append,
            parseVal_succ_cons f '[' _ (by decide),
            if_neg (by decide), if_neg (by decide), if_neg (by decide), if_neg (by decide),
            if_pos rfl]
          rw [List.append_assoc, List.singleton_append]
          obtain ⟨c, cs, hc, hws, hne⟩ := dumpElems_head v t
          rw [hc, List.cons_append, skipWs_not_ws c _ hws]
          show (if c = ']' then _ else _) = _
          rw [if_neg hne]
          rw [show c :: (cs ++ ']' :: rest) = JsonArr.dumpElems (.cons v t) ++ ']' :: rest by
            rw [hc]; simp]
          have hsz : JsonArr.size (.cons v t) ≤ f := by
            simp only [Json.size] at hf
            omega
          simp only [ihA v t rest hsz]
      | obj o =>
        cases o with
        | nil =>
          rw [show Json.dumpChars (.obj .nil) = lbrace :: [rbrace] from rfl, List.cons_append,
            parseVal_succ_cons f lbrace _ (by decide),
            if_neg (by decide), if_neg (by decide), if_neg (by decide), if_neg (by decide),
            if_neg (by decide), if_pos rfl]
          rw [show ([rbrace] : List Char) ++ rest = rbrace :: rest from rfl,
            skipWs_not_ws rbrace rest (by decide)]
          rfl
        | cons k v t =>
          rw [show Json.dumpChars (.obj (.cons k v t)) =
            lbrace :: (JsonObj.dumpEntries (.cons k v t) ++ [rbrace]) from rfl, List.cons_append,
            parseVal_succ_cons f lbrace _ (by decide),
            if_neg (by decide), if_neg (by decide), if_neg (by decide), if_neg (by decide),
            if_neg (by decide), if_pos rfl]
          rw [List.append_assoc, List.singleton_append]
          obtain ⟨cs, hc⟩ := dumpEntries_head k v t
          rw [hc, List.cons_append, skipWs_not_ws '"' _ (by decide)]
          show (if ('"' : Char) = rbrace then _ else _) = _
          rw [if_neg (by decide)]
          rw [show '"' :: (cs ++ rbrace :: rest) =
            JsonObj.dumpEntries (.cons k v t) ++ rbrace :: rest by rw [hc]; simp]
          have hsz : JsonObj.size (.cons k v t) ≤ f := by
            simp only [Json.size] at hf
            omega
          simp only [ihO k v t rest hsz]
    · intro v t rest hf
      cases t with
      | nil =>
        rw [show JsonArr.dumpElems (.cons v .nil) = v.dumpChars from rfl]
        unfold parseElems
        have hsz : Json.size v ≤ f := by
          simp only [JsonArr.size] at hf
          omega
        simp only [ihV v (']' :: rest) hsz (numOk_cons v ']' rest (by decide)),
          skipWs_not_ws ']' rest (by decide)]
        simp
      | cons w u =>
        rw [show JsonArr.dumpElems (.cons v (.cons w u)) =
          v.dumpChars ++ ',' :: ' ' :: JsonArr.dumpElems (.cons w u) from rfl]
        simp only [List.append_assoc, List.cons_append]
        unfold parseElems
        have hsz : Json.size v ≤ f := by
          simp only [JsonArr.size] at hf
          have := Json.size_pos w
          omega
        simp only [ihV v (',' :: ' ' :: (JsonArr.dumpElems (.cons w u) ++ ']' :: rest)) hsz
            (numOk_cons v ',' _ (by decide)),
          skipWs_not_ws ',' _ (by decide)]
        simp only [if_true]
        rw [parseElems_ws f _]
        have hsz2 : JsonArr.size (.cons w u) ≤ f := by
          simp only [JsonArr.size] at hf ⊢
          have := Json.size_pos v
          omega
        simp only [ihA w u rest hsz2]
    · intro k v t rest hf
      cases t with
      | nil =>
        rw [show JsonObj.dumpEntries (.cons k v .nil) =
          '"' :: (escList k.data ++ '"' :: ':' :: ' ' :: v.dumpChars) from rfl]
        unfold parseEntries
        rw [show ('"' :: (escList k.data ++ '"' :: ':' :: ' ' :: v.dumpChars)) ++ rbrace :: rest =
          '"' :: (escList k.data ++ '"' :: (':' :: ' ' :: (v.dumpChars ++ rbrace :: rest))) by
            simp]
        rw [skipWs_not_ws '"' _ (by decide)]
        show (if ('"' : Char) = '"' then _ else _) = _
        rw [if_pos rfl]
        rw [parseStrBody_esc k.data _]
        have hsz : Json.size v ≤ f := by
          simp only [JsonObj.size] at hf
          omega
        simp only [skipWs_not_ws ':' _ (by decide)]
        simp only [if_true]
        rw [parseVal_ws f _]
        simp only [ihV v (rbrace :: rest) hsz (numOk_cons v rbrace rest (by decide)),
          skipWs_not_ws rbrace rest (by decide)]
        simp [show rbrace ≠ ',' from by decide]
      | cons k2 v2 u =>
        rw [show JsonObj.dumpEntries (.cons k v (.cons k2 v2 u)) =
          ('"' :: (escList k.data ++ '"' :: ':' :: ' ' :: v.dumpChars))
            ++ ',' :: ' ' :: JsonObj.dumpEntries (.cons k2 v2 u) from rfl]
        unfold parseEntries
        rw [show (('"' :: (escList k.data ++ '"' :: ':' :: ' ' :: v.dumpChars))
            ++ ',' :: ' ' :: JsonObj.dumpEntries (.cons k2 v2 u)) ++ rbrace :: rest =
          '"' :: (escList k.data ++ '"' ::
            (':' :: ' ' :: (v.dumpChars ++
              ',' :: ' ' :: (JsonObj.dumpEntries (.cons k2 v2 u) ++ rbrace :: rest)))) by
            simp]
        rw [skipWs_not_ws '"' _ (by decide)]
        show (if ('"' : Char) = '"' then _ else _) = _
        rw [if_pos rfl]
        rw [parseStrBody_esc k.data _]
        have hsz : Json.size v ≤ f := by
          simp only [JsonObj.size] at hf
          have := Json.size_pos v2
          omega
        simp only [skipWs_not_ws ':' _ (by decide)]
        simp only [if_true]
        rw [parseVal_ws f _]
        simp only [ihV v (',' :: ' ' :: (JsonObj.dumpEntries (.cons k2 v2 u) ++ rbrace :: rest))
            hsz (numOk_cons v ',' _ (by decide)),
          skipWs_not_ws ',' _ (by decide)]
        simp only [if_true]
        rw [parseEntries_ws f _]
        have hsz2 : JsonObj.size (.cons k2 v2 u) ≤ f := by
          simp only [JsonObj.size] at hf ⊢
          have := Json.size_pos v
          omega
        simp only [ihO k2 v2 u rest hsz2]

/-- `json.loads` recovers exactly the value that was dumped. -/
theorem json_loads_dumps (j : Json) : json_loads (Json.dumps j) = .ok j := by
  have h := (parse_dumps_master (j.dumpChars.length + 1)).1 j []
    (le_trans (size_le_dumpChars j) (by omega)) (numOk_nil j)
  rw [List.append_nil] at h
  unfold json_loads Json.dumps
  simp only [show (String.mk j.dumpChars).data = j.dumpChars from rfl, h]

theorem partsGuard_mkPart (kvs : JsonObj) (key : String) :
    partsGuard (mkPartResponse (.obj kvs)) key = .ok (((kvs.lookup key).getD .null).truthy) := by
  simp [partsGuard, mkPartResponse, pyGet, pySub, pyIdx0, Json.truthy, JsonObj.lookup,
    bind, Except.bind, pure, Except.pure]

theorem extractPart_mkPart (kvs : JsonObj) (key : String) (v : Json)
    (h : kvs.lookup key = some v) :
    extractPart (mkPartResponse (.obj kvs)) key = .ok v := by
  simp [extractPart, mkPartResponse, pyGet, pySub, pyIdx0, JsonObj.lookup,
    bind, Except.bind, h]

theorem pySub_of_pyGet_truthy (v : Json) (k : String) (x : Json)
    (h : pyGet v k = .ok x) (ht : x.truthy = true) : pySub v k = .ok x := by
  cases v with
  | obj kvs =>
    simp only [pyGet, Except.ok.injEq] at h
    cases hl : kvs.lookup k with
    | none =>
      rw [hl] at h
      simp at h
      rw [← h] at ht
      exact absurd ht (by decide)
    | some w =>
      rw [hl] at h
      simp at h
      simp [pySub, hl, h]
  | null => simp [pyGet] at h
  | bool b => simp [pyGet] at h
  | num n => simp [pyGet] at h
  | str s => simp [pyGet] at h
  | arr a => simp [pyGet] at h

theorem guard_extract (r : Json) (k : String) (hg : partsGuard r k = .ok true) :
    ∃ v, extractPart r k = .ok v ∧ v.truthy = true := by
  unfold partsGuard at hg
  unfold extractPart
  simp only [bind, Except.bind, pure, Except.pure] at hg ⊢
  cases h1 : pyGet r "candidates" with
  | error e => simp [h1] at hg
  | ok c1 =>
  simp only [h1] at hg
  by_cases hc1 : c1.truthy
  swap
  · simp [hc1] at hg
  simp only [hc1, Bool.not_true, Bool.false_eq_true, if_false] at hg
  cases h2 : pySub r "candidates" with
  | error e => simp [h2] at hg
  | ok c2 =>
  simp only [h2] at hg
  cases h3 : pyIdx0 c2 with
  | error e => simp [h3] at hg
  | ok c3 =>
  simp only [h3] at hg
  cases h4 : pyGet c3 "content" with
  | error e => simp [h4] at hg
  | ok c4 =>
  simp only [h4] at hg
  by_cases hc4 : c4.truthy
  swap
  · simp [hc4] at hg
  simp only [hc4, Bool.not_true, Bool.false_eq_true, if_false] at hg
  cases h5 : pySub c3 "content" with
  | error e => simp [h5] at hg
  | ok d3 =>
  simp only [h5] at hg
  cases h6 : pyGet d3 "parts" with
  | error e => simp [h6] at hg
  | ok d4 =>
  simp only [h6] at hg
  by_cases hd4 : d4.truthy
  swap
  · simp [hd4] at hg
  simp only [hd4, Bool.not_true, Bool.false_eq_true, if_false] at hg
  cases h7 : pySub d3 "parts" with
  | error e => simp [h7] at hg
  | ok e4 =>
  simp only [h7] at hg
  cases h8 : pyIdx0 e4 with
  | error e => simp [h8] at hg
  | ok e5 =>
  simp only [h8] at hg
  cases h9 : pyGet e5 k with
  | error e => simp [h9] at hg
  | ok v =>
  simp only [h9, Except.ok.injEq] at hg
  refine ⟨v, ?_, hg⟩
  simp [h3, h5, h7, h8, pySub_of_pyGet_truthy e5 k v h9 hg]

theorem append_ne_empty_left (a b : String) (h : a ≠ "") : a ++ b ≠ "" := by
  intro he
  apply h
  have hd : a.data ++ b.data = [] := by
    have := congrArg String.data he
    simpa using this
  have ha : a.data = [] := (List.append_eq_nil.mp hd).1
  cases a
  simp_all

theorem secondCall_ok_truthy (env : Env) (v : Json) (h : secondCallResult env = .ok v) :
    v.truthy = true := by
  unfold secondCallResult at h
  cases hp : env.post2 with
  | error e => simp [hp] at h
  | ok rf =>
    simp only [hp] at h
    cases hg : partsGuard rf "text" with
    | error exc => simp [hg] at h
    | ok b =>
      cases b with
      | true =>
        simp only [hg] at h
        obtain ⟨w, hw, hwt⟩ := guard_extract rf "text" hg
        rw [hw] at h
        injection h with hv
        rw [← hv]
        exact hwt
      | false =>
        simp only [hg] at h
        injection h with hv
        rw [← hv]
        decide

theorem tryBody_ok_truthy (env : Env) (prompt : String) (v : Json)
    (h : (tryBody env prompt).1 = .ok v) : v.truthy = true := by
  unfold tryBody at h
  cases hp : env.post1 with
  | error e => simp [hp] at h
  | ok result =>
    simp only [hp] at h
    cases hg : partsGuard result "functionCall" with
    | error exc => simp [hg] at h
    | ok b =>
      cases b with
      | true =>
        simp only [hg] at h
        cases hx : extractPart result "functionCall" with
        | error exc => simp [hx] at h
        | ok function_call =>
          simp only [hx] at h
          cases hn : pySub function_call "name" with
          | error exc => simp [hn] at h
          | ok function_name =>
            simp only [hn] at h
            cases ha : pySub function_call "args" with
            | error exc => simp [ha] at h
            | ok function_args =>
              simp only [ha] at h
              by_cases he : function_name.eqStr "get_stock_info"
              · simp only [he, if_true] at h
                cases ht : pyGet function_args "ticker" with
                | error exc => simp [ht] at h
                | ok ticker =>
                  simp only [ht] at h
                  cases hl : json_loads (get_stock_info env.fetchInfo ticker) with
                  | error e => simp [hl] at h
                  | ok parsed =>
                    simp only [hl] at h
                    exact secondCall_ok_truthy env v h
              · simp only [he, Bool.false_eq_true, if_false] at h
                injection h with hv
                rw [← hv]
                simp only [Json.truthy, bne_iff_ne, ne_eq, decide_eq_true_eq]
                exact append_ne_empty_left _ _ (by decide)
      | false =>
        simp only [hg] at h
        cases hg2 : partsGuard result "text" with
        | error exc => simp [hg2] at h
        | ok b2 =>
          cases b2 with
          | true =>
            simp only [hg2] at h
            obtain ⟨w, hw, hwt⟩ := guard_extract result "text" hg2
            cases hx : extractPart result "text" with
            | error exc => simp [hx] at h
            | ok t =>
              simp only [hx] at h
              injection h with hv
              rw [hx] at hw
              injection hw with hw2
              rw [← hv, hw2]
              exact hwt
          | false =>
            simp only [hg2] at h
            injection h with hv
            rw [← hv]
            decide

/-- The registered-tool flow: when the first response carries a
`functionCall` for `get_stock_info` whose args contain a `"ticker"` entry,
the run fetches exactly that ticker once and issues exactly the second
payload the source builds, for any provider/second-call behaviour. -/
theorem tryBody_tool (env : Env) (prompt : String) (args : JsonObj) (T : Json)
    (hargs : args.lookup "ticker" = some T)
    (h1 : env.post1 = .ok (mkFCResponse (fcObj "get_stock_info" (.obj args)))) :
    tryBody env prompt =
      (secondCallResult env,
        ⟨[mkPayload (initialHistory prompt),
          mkPayload (initialHistory prompt
            ++ [modelMsg (fcObj "get_stock_info" (.obj args)),
                functionMsg (stockInfoJson env.fetchInfo T)])], [T]⟩) := by
  have hgd : partsGuard (mkFCResponse (fcObj "get_stock_info" (.obj args))) "functionCall"
      = .ok true := by
    unfold mkFCResponse
    rw [partsGuard_mkPart]
    rfl
  have hex : extractPart (mkFCResponse (fcObj "get_stock_info" (.obj args))) "functionCall"
      = .ok (fcObj "get_stock_info" (.obj args)) := by
    unfold mkFCResponse
    exact extractPart_mkPart _ _ _ rfl
  have hname : pySub (fcObj "get_stock_info" (.obj args)) "name" = .ok (.str "get_stock_info") :=
    rfl
  have hargs2 : pySub (fcObj "get_stock_info" (.obj args)) "args" = .ok (.obj args) := rfl
  have htick : pyGet (.obj args) "ticker" = .ok T := by
    show Except.ok ((args.lookup "ticker").getD Json.null) = .ok T
    rw [hargs]
    rfl
  have hloads : json_loads (get_stock_info env.fetchInfo T)
      = .ok (stockInfoJson env.fetchInfo T) := json_loads_dumps _
  unfold tryBody
  simp only [h1, hgd, hex, hname, hargs2, htick, hloads, Json.eqStr]
  rfl

/-- The plain-text flow: a first response whose only part is `{"text": t}`
triggers no tool branch; a truthy `t` is returned as-is, a falsy one yields
the generic no-clear-response string. -/
theorem tryBody_textResponse (env : Env) (prompt : String) (t : Json)
    (h1 : env.post1 = .ok (mkTextResponse t)) :
    tryBody env prompt =
      (if t.truthy then .ok t
       else .ok (.str "I couldn\x27t get a clear response from the model. Please try again."),
       ⟨[mkPayload (initialHistory prompt)], []⟩) := by
  have hg1 : partsGuard (mkTextResponse t) "functionCall" = .ok false := by
    unfold mkTextResponse
    rw [partsGuard_mkPart]
    rfl
  have hg2 : partsGuard (mkTextResponse t) "text" = .ok t.truthy := by
    unfold mkTextResponse
    rw [partsGuard_mkPart]
    rfl
  have hex : extractPart (mkTextResponse t) "text" = .ok t := by
    unfold mkTextResponse
    exact extractPart_mkPart _ _ _ rfl
  unfold tryBody
  simp only [h1, hg1, hg2]
  cases ht : t.truthy with
  | true => simp [hex]
  | false => simp

/-- The unknown-tool flow: a `functionCall` part whose `name` differs from
`get_stock_info` (but which does carry an `args` entry) yields the
unknown-function string, with no fetch and no second request. -/
theorem tryBody_unknownTool (env : Env) (prompt : String) (name : String) (args : Json)
    (hne : name ≠ "get_stock_info")
    (h1 : env.post1 = .ok (mkFCResponse (fcObj name args))) :
    tryBody env prompt =
      (.ok (.str ("Agent tried to call an unknown function: " ++ name)),
        ⟨[mkPayload (initialHistory prompt)], []⟩) := by
  have hgd : partsGuard (mkFCResponse (fcObj name args)) "functionCall" = .ok true := by
    unfold mkFCResponse
    rw [partsGuard_mkPart]
    rfl
  have hex : extractPart (mkFCResponse (fcObj name args)) "functionCall"
      = .ok (fcObj name args) := by
    unfold mkFCResponse
    exact extractPart_mkPart _ _ _ rfl
  have hname : pySub (fcObj name args) "name" = .ok (.str name) := rfl
  have hargs2 : pySub (fcObj name args) "args" = .ok args := rfl
  have heq : (Json.str name).eqStr "get_stock_info" = false := by
    simp [Json.eqStr, hne]
  unfold tryBody
  simp only [h1, hgd, hex, hname, hargs2, heq, Bool.false_eq_true, if_false]
  rfl

/-- A transport failure on the first call stops the turn at once. -/
theorem tryBody_post1_error (env : Env) (prompt : String) (e : String)
    (h1 : env.post1 = .error e) :
    tryBody env prompt = (.error (.reqExc e), ⟨[mkPayload (initialHistory prompt)], []⟩) := by
  unfold tryBody
  rw [h1]

theorem gar_ok (env : Env) (prompt : String) (key : Option String) (v : Json) (tr : Trace)
    (hk : apiKeyFalsy key = false) (h : tryBody env prompt = (.ok v, tr)) :
    get_agent_response env prompt key = (v, tr) := by
  unfold get_agent_response
  simp only [hk, Bool.false_eq_true, if_false, h]

theorem gar_req (env : Env) (prompt : String) (key : Option String) (e : String) (tr : Trace)
    (hk : apiKeyFalsy key = false) (h : tryBody env prompt = (.error (.reqExc e), tr)) :
    get_agent_response env prompt key = (.str (transportFailureMsg e), tr) := by
  unfold get_agent_response
  simp only [hk, Bool.false_eq_true, if_false, h]

theorem gar_trace (env : Env) (prompt : String) (key : Option String)
    (hk : apiKeyFalsy key = false) :
    (get_agent_response env prompt key).2 = (tryBody env prompt).2 := by
  unfold get_agent_response
  simp only [hk, Bool.false_eq_true, if_false]
  rcases h : tryBody env prompt with ⟨r, tr⟩
  cases r with
  | ok v => rfl
  | error exc => cases exc <;> rfl

/-- Every run either stops after the single first request (with at most one
recorded fetch), or records exactly the two requests and one fetch of the
tool flow. -/
theorem tryBody_trace_cases (env : Env) (prompt : String) :
    ((tryBody env prompt).2.posts = [mkPayload (initialHistory prompt)] ∧
      (tryBody env prompt).2.fetches.length ≤ 1) ∨
    (∃ fc parsed ticker, (tryBody env prompt).2 =
      ⟨[mkPayload (initialHistory prompt),
        mkPayload (initialHistory prompt ++ [modelMsg fc, functionMsg parsed])], [ticker]⟩) := by
  unfold tryBody
  cases hp : env.post1 with
  | error e => left; exact ⟨rfl, by simp⟩
  | ok result =>
    simp only []
    cases hg : partsGuard result "functionCall" with
    | error exc => left; exact ⟨rfl, by simp⟩
    | ok b =>
      cases b with
      | true =>
        simp only []
        cases hx : extractPart result "functionCall" with
        | error exc => left; exact ⟨rfl, by simp⟩
        | ok function_call =>
          simp only []
          cases hn : pySub function_call "name" with
          | error exc => left; exact ⟨rfl, by simp⟩
          | ok function_name =>
            simp only []
            cases ha : pySub function_call "args" with
            | error exc => left; exact ⟨rfl, by simp⟩
            | ok function_args =>
              simp only []
              by_cases he : function_name.eqStr "get_stock_info"
              · simp only [he, if_true]
                cases ht : pyGet function_args "ticker" with
                | error exc => left; exact ⟨rfl, by simp⟩
                | ok ticker =>
                  simp only []
                  cases hl : json_loads (get_stock_info env.fetchInfo ticker) with
                  | error e => left; exact ⟨rfl, by simp⟩
                  | ok parsed =>
                    right
                    exact ⟨function_call, parsed, ticker, rfl⟩
              · simp only [he, Bool.false_eq_true, if_false]
                left
                exact ⟨by trivial, by simp⟩
      | false =>
        simp only []
        cases hg2 : partsGuard result "text" with
        | error exc => left; exact ⟨rfl, by simp⟩
        | ok b2 =>
          cases b2 with
          | true =>
            simp only []
            cases hx : extractPart result "text" with
            | error exc => left; exact ⟨rfl, by simp⟩
            | ok t => left; exact ⟨rfl, by simp⟩
          | false => left; exact ⟨rfl, by simp⟩

/-- Per turn at most two requests and at most one tool invocation are ever
recorded. -/
theorem tryBody_trace_bounds (env : Env) (prompt : String) :
    (tryBody env prompt).2.posts.length ≤ 2 ∧ (tryBody env prompt).2.fetches.length ≤ 1 := by
  rcases tryBody_trace_cases env prompt with ⟨h1, h2⟩ | ⟨fc, parsed, ticker, h⟩
  · rw [h1]
    exact ⟨by simp, h2⟩
  · rw [h]
    exact ⟨by simp, by simp⟩

/-- If two requests went out, the turn's outcome is that of the second
completion call. -/
theorem tryBody_posts2 (env : Env) (prompt : String)
    (h : (tryBody env prompt).2.posts.length = 2) :
    (tryBody env prompt).1 = secondCallResult env := by
  unfold tryBody at h ⊢
  cases hp : env.post1 with
  | error e => simp [hp] at h
  | ok result =>
    simp only [hp] at h ⊢
    cases hg : partsGuard result "functionCall" with
    | error exc => simp [hg] at h
    | ok b =>
      cases b with
      | true =>
        simp only [hg] at h ⊢
        cases hx : extractPart result "functionCall" with
        | error exc => simp [hx] at h
        | ok function_call =>
          simp only [hx] at h ⊢
          cases hn : pySub function_call "name" with
          | error exc => simp [hn] at h
          | ok function_name =>
            simp only [hn] at h ⊢
            cases ha : pySub function_call "args" with
            | error exc => simp [ha] at h
            | ok function_args =>
              simp only [ha] at h ⊢
              by_cases he : function_name.eqStr "get_stock_info"
              · simp only [he, if_true] at h ⊢
                cases ht : pyGet function_args "ticker" with
                | error exc => simp [ht] at h
                | ok ticker =>
                  simp only [ht] at h ⊢
                  cases hl : json_loads (get_stock_info env.fetchInfo ticker) with
                  | error e => simp [hl] at h
                  | ok parsed => simp only [hl]
              · simp only [he, Bool.false_eq_true, if_false] at h
                simp at h
      | false =>
        simp only [hg] at h
        cases hg2 : partsGuard result "text" with
        | error exc => simp [hg2] at h
        | ok b2 =>
          cases b2 with
          | true =>
            simp only [hg2] at h
            cases hx : extractPart result "text" with
            | error exc => simp [hx] at h
            | ok t => simp [hx] at h
          | false => simp [hg2] at h

/-- When the second response again asks for a tool instead of text, the
fallback string is produced (the orchestrator never executes a second tool
round). -/
theorem secondCall_fcResponse (env : Env) (fc : Json)
    (h2 : env.post2 = .ok (mkFCResponse fc)) :
    secondCallResult env =
      .ok (.str "I received data from the stock tool, but couldn\x27t formulate a clear response.") := by
  have hg : partsGuard (mkFCResponse fc) "text" = .ok false := by
    unfold mkFCResponse
    rw [partsGuard_mkPart]
    rfl
  unfold secondCallResult
  simp only [h2, hg]

/-! ## Claim C1 -/

/-- C1 (counterexample): with a well-shaped response whose only part is
`{"text": 5}`, `get_agent_response` returns the Python integer `5` — not a
string — so "returns a non-empty string for every endpoint behaviour" fails
as stated. -/
theorem C1_counterexample :
    (get_agent_response envNumText "What is AAPL?" (some "key")).1 = Json.num 5 ∧
    Json.isStr (get_agent_response envNumText "What is AAPL?" (some "key")).1 = false := by
  constructor <;> rfl

/-- C1 (amended): for every user text, credential, and provider/endpoint
behaviour, `get_agent_response` returns a truthy Python value — in
particular, whenever the value is a string it is non-empty — and it never
raises (the model of the function is total: every branch of the source's
`try` ladder ends in a returned value). -/
theorem C1_amended (env : Env) (prompt : String) (key : Option String) :
    ((get_agent_response env prompt key).1).truthy = true := by
  unfold get_agent_response
  by_cases hk : apiKeyFalsy key
  · simp only [hk, if_true]
    decide
  · simp only [hk, Bool.false_eq_true, if_false]
    rcases h : tryBody env prompt with ⟨r, tr⟩
    cases r with
    | ok v =>
      simp only []
      exact tryBody_ok_truthy env prompt v (by rw [h])
    | error exc =>
      cases exc with
      | reqExc e =>
        show (Json.str (transportFailureMsg e)).truthy = true
        simp only [Json.truthy, bne_iff_ne, ne_eq, decide_eq_true_eq]
        unfold transportFailureMsg
        repeat' apply append_ne_empty_left
        decide
      | other m =>
        show (Json.str "An unexpected error occurred.").truthy = true
        decide

/-! ## Claim C5 -/

/-- C5 (confirmed): whenever the provider returns non-empty info for a string
ticker, the tool output parses back to a record carrying exactly the eleven
fields, with `currentPrice` falling back to `regularMarketPrice` and then to
`"N/A"`, and every other provider-sourced field falling back to `"N/A"`. -/
theorem C5_full_record (fetchInfo : FetchOracle) (t : String) (info : JsonObj)
    (hfetch : fetchInfo (.str t) = .ok info) (hne : info.isEmpty = false) :
    json_loads (get_stock_info fetchInfo (.str t)) = .ok (.obj (stockDataRecord t info)) ∧
    (stockDataRecord t info).keys =
      ["ticker", "longName", "currency", "exchange", "currentPrice", "previousClose",
        "open", "dayHigh", "dayLow", "volume", "marketCap"] ∧
    (stockDataRecord t info).lookup "ticker" = some (.str t.toUpper) ∧
    (stockDataRecord t info).lookup "currentPrice" =
      some ((info.lookup "currentPrice").getD
        ((info.lookup "regularMarketPrice").getD (.str "N/A"))) ∧
    (stockDataRecord t info).lookup "longName" =
      some ((info.lookup "longName").getD (.str "N/A")) ∧
    (stockDataRecord t info).lookup "currency" =
      some ((info.lookup "currency").getD (.str "N/A")) ∧
    (stockDataRecord t info).lookup "exchange" =
      some ((info.lookup "exchange").getD (.str "N/A")) ∧
    (stockDataRecord t info).lookup "previousClose" =
      some ((info.lookup "previousClose").getD (.str "N/A")) ∧
    (stockDataRecord t info).lookup "open" =
      some ((info.lookup "open").getD (.str "N/A")) ∧
    (stockDataRecord t info).lookup "dayHigh" =
      some ((info.lookup "dayHigh").getD (.str "N/A")) ∧
    (stockDataRecord t info).lookup "dayLow" =
      some ((info.lookup "dayLow").getD (.str "N/A")) ∧
    (stockDataRecord t info).lookup "volume" =
      some ((info.lookup "volume").getD (.str "N/A")) ∧
    (stockDataRecord t info).lookup "marketCap" =
      some ((info.lookup "marketCap").getD (.str "N/A")) := by
  have hsj : stockInfoJson fetchInfo (.str t) = .obj (stockDataRecord t info) := by
    unfold stockInfoJson
    simp only [hfetch, hne, Bool.false_eq_true, if_false]
  refine ⟨?_, rfl, rfl, rfl, rfl, rfl, rfl, rfl, rfl, rfl, rfl, rfl, rfl⟩
  rw [show get_stock_info fetchInfo (.str t) = (stockInfoJson fetchInfo (.str t)).dumps from rfl,
    hsj]
  exact json_loads_dumps _

/-- C5 witness at a concrete provider mapping. -/
theorem C5_full_record_witness :
    json_loads (get_stock_info demoFetch (.str "AAPL")) =
      .ok (.obj (stockDataRecord "AAPL" demoInfo)) :=
  (C5_full_record demoFetch "AAPL" demoInfo rfl rfl).1

/-! ## Claim C6 -/

/-- C6 (confirmed): with no usable provider data the tool returns the
`"Could not find information for ticker: <T>. Please check the symbol."`
error carrying the literal ticker; on a provider exception it returns the
`"An error occurred while fetching data for <T>: <e>"` error embedding the
ticker and the failure description, instead of propagating the fault. -/
theorem C6_error_messages (fetchInfo : FetchOracle) (t : String) :
    (fetchInfo (.str t) = .ok .nil →
      get_stock_info fetchInfo (.str t) =
        Json.dumps (.obj (.cons "error"
          (.str ("Could not find information for ticker: " ++ t
            ++ ". Please check the symbol.")) .nil))) ∧
    (∀ e, fetchInfo (.str t) = .error e →
      get_stock_info fetchInfo (.str t) =
        Json.dumps (.obj (.cons "error"
          (.str ("An error occurred while fetching data for " ++ t ++ ": " ++ e)) .nil))) := by
  constructor
  · intro h
    unfold get_stock_info stockInfoJson
    simp only [h]
    rfl
  · intro e h
    unfold get_stock_info stockInfoJson
    simp only [h]
    rfl

/-- C6 witness: a provider with no data for the ticker. -/
theorem C6_error_messages_witness :
    get_stock_info emptyFetch (.str "ZZZZ") =
      Json.dumps (.obj (.cons "error"
        (.str ("Could not find information for ticker: " ++ "ZZZZ"
          ++ ". Please check the symbol.")) .nil)) :=
  (C6_error_messages emptyFetch "ZZZZ").1 rfl

/-! ## Claim C7 -/

/-- C7 (confirmed): with a falsy credential (absent or empty), the
orchestrator returns the fixed non-empty missing-credential string as a
normal value, and the trace is empty: no completion request and no
market-data fetch is ever attempted. -/
theorem C7_missing_credential (env : Env) (prompt : String) (key : Option String)
    (hk : apiKeyFalsy key = true) :
    get_agent_response env prompt key =
      (.str "Gemini API Key is missing. Please provide it to use the assistant.", ⟨[], []⟩) ∧
    Json.truthy (.str "Gemini API Key is missing. Please provide it to use the assistant.")
      = true := by
  constructor
  · unfold get_agent_response
    simp [hk]
  · decide

/-- C7 witness at `None`. -/
theorem C7_missing_credential_witness :
    get_agent_response envToolDemo "What is AAPL?" none =
      (.str "Gemini API Key is missing. Please provide it to use the assistant.", ⟨[], []⟩) :=
  (C7_missing_credential envToolDemo "What is AAPL?" none rfl).1

/-- C10 (confirmed): for every ticker value (including `None`) and every
provider behaviour, the tool output is `json.dumps` of a value that
`json.loads` recovers — this is exactly the `json.loads(tool_output)` the
orchestrator performs, so it never raises — and the recovered top-level value
is either the eleven-field record or a single-key error object. -/
theorem C10_always_json (fetchInfo : FetchOracle) (ticker : Json) :
    json_loads (get_stock_info fetchInfo ticker) = .ok (stockInfoJson fetchInfo ticker) ∧
    stockShapeOk (stockInfoJson fetchInfo ticker) = true := by
  refine ⟨json_loads_dumps _, ?_⟩
  unfold stockInfoJson
  cases h : fetchInfo ticker with
  | error e => rfl
  | ok info =>
    by_cases hi : info.isEmpty
    · simp only [hi, if_true]
      rfl
    · simp only [hi, Bool.false_eq_true, if_false]
      cases ticker <;> rfl

theorem gar_other (env : Env) (prompt : String) (key : Option String) (m : String) (tr : Trace)
    (hk : apiKeyFalsy key = false) (h : tryBody env prompt = (.error (.other m), tr)) :
    get_agent_response env prompt key = (.str "An unexpected error occurred.", tr) := by
  unfold get_agent_response
  simp only [hk, Bool.false_eq_true, if_false, h]

/-! ## Claim C2 -/

/-- C2 (confirmed): when the first response's first part is a `functionCall`
for `get_stock_info` whose args map `"ticker"` to `T`, the run records
exactly one fetch, with argument `T`, and exactly two completion requests —
the second carrying the first request's two message parts followed by the
model-role entry with the exact received `functionCall` and the
function-role entry with the parsed tool output keyed `get_stock_info`, with
the same tool-declaration list (`mkPayload` attaches `toolsJson` to both). -/
theorem C2_tool_roundtrip (env : Env) (prompt : String) (key : Option String)
    (args : JsonObj) (T : Json)
    (hk : apiKeyFalsy key = false)
    (hargs : args.lookup "ticker" = some T)
    (h1 : env.post1 = .ok (mkFCResponse (fcObj "get_stock_info" (.obj args)))) :
    (get_agent_response env prompt key).2 =
      ⟨[mkPayload (initialHistory prompt),
        mkPayload (initialHistory prompt
          ++ [modelMsg (fcObj "get_stock_info" (.obj args)),
              functionMsg (stockInfoJson env.fetchInfo T)])], [T]⟩ := by
  rw [gar_trace env prompt key hk, tryBody_tool env prompt args T hargs h1]

/-- C2 witness at the `"AAPL"` scenario. -/
theorem C2_tool_roundtrip_witness :
    (get_agent_response envToolDemo "What is the price of AAPL?" (some "key")).2 =
      ⟨[mkPayload (initialHistory "What is the price of AAPL?"),
        mkPayload (initialHistory "What is the price of AAPL?"
          ++ [modelMsg (fcObj "get_stock_info" (.obj argsAAPL)),
              functionMsg (stockInfoJson emptyFetch (.str "AAPL"))])], [.str "AAPL"]⟩ :=
  C2_tool_roundtrip envToolDemo "What is the price of AAPL?" (some "key") argsAAPL
    (.str "AAPL") rfl rfl rfl

/-! ## Claim C3 -/

/-- C3 (counterexample): a first response requesting the unknown tool
`do_something_else` via a `functionCall` that carries no `"args"` entry makes
the orchestrator hit a `KeyError` and return the generic
"An unexpected error occurred." — a string that does not identify the tool by
name — though no fetch occurs. -/
theorem C3_counterexample :
    (get_agent_response envNoArgs "hi" (some "key")).1 =
      .str "An unexpected error occurred." ∧
    (get_agent_response envNoArgs "hi" (some "key")).2.fetches = [] := by
  constructor <;> rfl

/-- C3 (amended): when the first response requests a tool whose name differs
from `get_stock_info` and whose invocation carries an args entry, the
orchestrator returns the string naming the unknown function; if the
invocation has no args entry it returns the generic unexpected-error string
instead; in both cases no fetch and no second request occur. -/
theorem C3_amended (env : Env) (prompt : String) (key : Option String)
    (hk : apiKeyFalsy key = false) :
    (∀ name args, name ≠ "get_stock_info" →
      env.post1 = .ok (mkFCResponse (fcObj name args)) →
      get_agent_response env prompt key =
        (.str ("Agent tried to call an unknown function: " ++ name),
          ⟨[mkPayload (initialHistory prompt)], []⟩)) ∧
    (∀ name, env.post1 = .ok (mkFCResponse (.obj (.cons "name" (.str name) .nil))) →
      get_agent_response env prompt key =
        (.str "An unexpected error occurred.", ⟨[mkPayload (initialHistory prompt)], []⟩)) := by
  constructor
  · intro name args hne h1
    exact gar_ok env prompt key _ _ hk (tryBody_unknownTool env prompt name args hne h1)
  · intro name h1
    have hgd : partsGuard (mkFCResponse (.obj (.cons "name" (.str name) .nil))) "functionCall"
        = .ok true := by
      unfold mkFCResponse
      rw [partsGuard_mkPart]
      rfl
    have hex : extractPart (mkFCResponse (.obj (.cons "name" (.str name) .nil))) "functionCall"
        = .ok (.obj (.cons "name" (.str name) .nil)) := by
      unfold mkFCResponse
      exact extractPart_mkPart _ _ _ rfl
    have hname : pySub (.obj (.cons "name" (.str name) .nil)) "name" = .ok (.str name) := rfl
    have hargs : pySub (.obj (.cons "name" (.str name) .nil)) "args"
        = .error (.other "KeyError: args") := rfl
    have htb : tryBody env prompt =
        (.error (.other "KeyError: args"), ⟨[mkPayload (initialHistory prompt)], []⟩) := by
      unfold tryBody
      simp only [h1, hgd, hex, hname, hargs]
    exact gar_other env prompt key _ _ hk htb

/-- C3 witness: the registered-name check at the `do_something_else`
scenario with args present. -/
theorem C3_amended_witness :
    get_agent_response envUnknownTool "hi" (some "key") =
      (.str ("Agent tried to call an unknown function: " ++ "do_something_else"),
        ⟨[mkPayload (initialHistory "hi")], []⟩) :=
  (C3_amended envUnknownTool "hi" (some "key") rfl).1 "do_something_else" (.obj .nil)
    (by decide) rfl

/-! ## Claim C4 -/

/-- C4 (confirmed): per user turn at most two completion requests and at most
one tool fetch are recorded; and if the second response again carries a
`functionCall` part (a request for a further tool round), it is not executed:
whenever two requests went out the result is the generic
"received data but could not formulate a response" string (the fetch count
stays within the single recorded round; no branch re-enters the tool code). -/
theorem C4_single_round (env : Env) (prompt : String) (key : Option String) :
    (get_agent_response env prompt key).2.posts.length ≤ 2 ∧
    (get_agent_response env prompt key).2.fetches.length ≤ 1 ∧
    (∀ fc, env.post2 = .ok (mkFCResponse fc) →
      (get_agent_response env prompt key).2.posts.length = 2 →
      (get_agent_response env prompt key).1 =
        .str "I received data from the stock tool, but couldn\x27t formulate a clear response.") := by
  by_cases hk : apiKeyFalsy key
  · unfold get_agent_response
    simp only [hk, if_true]
    refine ⟨by simp, by simp, ?_⟩
    intro fc h2 hp
    simp at hp
  · rw [Bool.not_eq_true] at hk
    have htr := gar_trace env prompt key hk
    refine ⟨?_, ?_, ?_⟩
    · rw [htr]
      exact (tryBody_trace_bounds env prompt).1
    · rw [htr]
      exact (tryBody_trace_bounds env prompt).2
    · intro fc h2 hp
      rw [htr] at hp
      have hres := tryBody_posts2 env prompt hp
      rw [secondCall_fcResponse env fc h2] at hres
      rcases h : tryBody env prompt with ⟨r, tr⟩
      rw [h] at hres
      simp only [] at hres
      have := gar_ok env prompt key _ tr hk (by rw [h, hres])
      rw [this]

/-- C4 witness: the model asks for a second tool round and receives the
fallback string instead. -/
theorem C4_single_round_witness :
    (get_agent_response envToolLoop "hi" (some "key")).1 =
      .str "I received data from the stock tool, but couldn\x27t formulate a clear response." :=
  (C4_single_round envToolLoop "hi" (some "key")).2.2
    (fcObj "get_stock_info" (.obj argsAAPL)) rfl (by rfl)

/-! ## Claim C8 -/

/-- C8 (confirmed): a transport-level failure of either completion request is
terminal for the turn: no retry and no further requests are recorded, and the
returned string is the failure text, which embeds the failure description and
names the configured model (`AGENT_MODEL`, i.e. `gemini-2.0-flash`). -/
theorem C8_transport_failure (env : Env) (prompt : String) (key : Option String)
    (hk : apiKeyFalsy key = false) :
    AGENT_MODEL = "gemini-2.0-flash" ∧
    (∀ e, env.post1 = .error e →
      get_agent_response env prompt key =
        (.str (transportFailureMsg e), ⟨[mkPayload (initialHistory prompt)], []⟩)) ∧
    (∀ e args T, JsonObj.lookup args "ticker" = some T →
      env.post1 = .ok (mkFCResponse (fcObj "get_stock_info" (.obj args))) →
      env.post2 = .error e →
      get_agent_response env prompt key =
        (.str (transportFailureMsg e),
          ⟨[mkPayload (initialHistory prompt),
            mkPayload (initialHistory prompt
              ++ [modelMsg (fcObj "get_stock_info" (.obj args)),
                  functionMsg (stockInfoJson env.fetchInfo T)])], [T]⟩)) := by
  refine ⟨rfl, ?_, ?_⟩
  · intro e h1
    exact gar_req env prompt key e _ hk (tryBody_post1_error env prompt e h1)
  · intro e args T hargs h1 h2
    have htb := tryBody_tool env prompt args T hargs h1
    have hsc : secondCallResult env = .error (.reqExc e) := by
      unfold secondCallResult
      simp only [h2]
    rw [hsc] at htb
    exact gar_req env prompt key e _ hk htb

/-- C8 witness: the first request fails with a connection error. -/
theorem C8_transport_failure_witness :
    get_agent_response envPost1Fail "hi" (some "key") =
      (.str (transportFailureMsg "connection refused"),
        ⟨[mkPayload (initialHistory "hi")], []⟩) :=
  (C8_transport_failure envPost1Fail "hi" (some "key") rfl).2.1 "connection refused" rfl

/-! ## Claim C9 -/

/-- C9 (counterexample): a first response whose only part is `{"text": ""}`
is plain text, yet the orchestrator does not return that text unchanged — the
empty string is falsy, so the generic no-clear-response string is returned
instead. -/
theorem C9_counterexample :
    (get_agent_response envEmptyTextPart "hi" (some "key")).1 =
      .str "I couldn\x27t get a clear response from the model. Please try again." ∧
    (get_agent_response envEmptyTextPart "hi" (some "key")).1 ≠ .str "" := by
  constructor
  · rfl
  · decide

/-- C9 (amended): when the first response's first part carries non-empty
plain text, the orchestrator returns that text unchanged with no second
request and no fetch; an empty-string text part instead yields the generic
no-clear-response string, likewise with no second request and no fetch. -/
theorem C9_amended (env : Env) (prompt : String) (key : Option String)
    (hk : apiKeyFalsy key = false) :
    (∀ s : String, s ≠ "" → env.post1 = .ok (mkTextResponse (.str s)) →
      get_agent_response env prompt key =
        (.str s, ⟨[mkPayload (initialHistory prompt)], []⟩)) ∧
    (env.post1 = .ok (mkTextResponse (.str "")) →
      get_agent_response env prompt key =
        (.str "I couldn\x27t get a clear response from the model. Please try again.",
          ⟨[mkPayload (initialHistory prompt)], []⟩)) := by
  constructor
  · intro s hs h1
    have ht := tryBody_textResponse env prompt (.str s) h1
    have htr : (Json.str s).truthy = true := by
      simp only [Json.truthy, bne_iff_ne, ne_eq, decide_eq_true_eq]
      exact hs
    rw [if_pos htr] at ht
    exact gar_ok env prompt key _ _ hk ht
  · intro h1
    have ht := tryBody_textResponse env prompt (.str "") h1
    rw [if_neg (by decide)] at ht
    exact gar_ok env prompt key _ _ hk ht

/-- C9 witness: non-empty plain text is passed through unchanged. -/
theorem C9_amended_witness :
    get_agent_response envPlainText "hi" (some "key") =
      (.str "Apple is a company.", ⟨[mkPayload (initialHistory "hi")], []⟩) :=
  (C9_amended envPlainText "hi" (some "key") rfl).1 "Apple is a company." (by decide) rfl
